import Mathlib

/-!
Shallow embedding of the QuickCare core: the doctor free-slot engine
(`doctors/views.py`, `DoctorAvailableSlotsView.get`) and the document-consent
state machine (`documents/views.py`: `DocumentDetailView`, `ConsentRequestView`,
`PatientConsentActionView`).

Times of day are minutes since midnight as `Nat`; calendar dates are day
ordinals as `Nat` (weekday = date % 7); timestamps (`expires_at`, `now`) are
`Nat` ticks.  Database rows become structures, querysets become lists, and the
HTTP layer becomes explicit result values.
-/

namespace QuickCare

/-! ### Calendar primitives: the slot-generation while-loop

`doctors/views.py` lines 262-269:
  current = datetime.combine(query_date, avail.start_time)
  end     = datetime.combine(query_date, avail.end_time)
  delta   = timedelta(minutes=avail.slot_duration_minutes)
  while current + delta <= end: ... current += delta

`slotLoopFuel` is the loop step-by-step with explicit fuel; `none` means the
fuel ran out with the loop still running (the loop did not terminate within
`fuel` iterations).  `generateSlotsAux`/`generateSlots` is the same loop's
value with fuel `stop + 1 - start`, which is always sufficient when the
duration is at least one minute. -/

def slotLoopFuel : Nat → Nat → Nat → Nat → Option (List Nat)
  | 0, _, _, _ => none
  | fuel + 1, current, stop, dur =>
    if current + dur ≤ stop then
      (slotLoopFuel fuel (current + dur) stop dur).map (fun rest => current :: rest)
    else some []

/-- The while-loop never finishes, no matter how many iterations it is given. -/
def slotLoopDiverges (start stop dur : Nat) : Prop :=
  ∀ fuel, slotLoopFuel fuel start stop dur = none

def generateSlotsAux : Nat → Nat → Nat → Nat → List Nat
  | 0, _, _, _ => []
  | fuel + 1, current, stop, dur =>
    if current + dur ≤ stop then current :: generateSlotsAux fuel (current + dur) stop dur
    else []

def generateSlots (start stop dur : Nat) : List Nat :=
  generateSlotsAux (stop + 1 - start) start stop dur

/-- The loop body with the inline booked-time filter of lines 265-269:
slots already taken (`slot_time in booked_times`) are skipped. -/
def windowLoopAux : Nat → List Nat → Nat → Nat → Nat → List Nat
  | 0, _, _, _, _ => []
  | fuel + 1, booked, current, stop, dur =>
    if current + dur ≤ stop then
      if booked.contains current then windowLoopAux fuel booked (current + dur) stop dur
      else current :: windowLoopAux fuel booked (current + dur) stop dur
    else []

def windowSlots (booked : List Nat) (start stop dur : Nat) : List Nat :=
  windowLoopAux (stop + 1 - start) booked start stop dur

/-! ### Availability store and slot engine -/

/-- `DoctorAvailability` row (`doctors/models.py`): a weekly recurring window.
`day` is the weekday (0-6), `clinic` the optional clinic id. -/
structure DoctorAvailability where
  id : Nat
  clinic : Option Nat
  day : Nat
  start_time : Nat
  end_time : Nat
  slot_duration_minutes : Nat
  is_active : Bool
deriving DecidableEq

/-- `DoctorLeave` row: closed date interval during which the doctor is away. -/
structure DoctorLeave where
  start_date : Nat
  end_date : Nat
deriving DecidableEq

def dayOfWeek (date : Nat) : Nat := date % 7

/-- Leave filter of lines 238-240: `start_date__lte=query_date, end_date__gte=query_date`
(the clinic of the leave is ignored). -/
def coversDate (date : Nat) (l : DoctorLeave) : Bool :=
  decide (l.start_date ≤ date) && decide (date ≤ l.end_date)

/-- Window queryset filter of lines 244-248: same weekday, active, and the
optional `clinic_id` query-param filter. -/
def matchesQuery (date : Nat) (clinicFilter : Option Nat) (w : DoctorAvailability) : Bool :=
  w.day == dayOfWeek date && w.is_active &&
    (match clinicFilter with
     | none => true
     | some c => w.clinic == some c)

/-- Ordering of the availability queryset: `Meta.ordering = ['day', 'start_time']`;
all windows matching one query share the weekday, so the effective order is by
`start_time`. -/
def startLE (a b : DoctorAvailability) : Prop := a.start_time ≤ b.start_time

instance : DecidableRel startLE :=
  fun a b => inferInstanceAs (Decidable (a.start_time ≤ b.start_time))

instance : IsTotal DoctorAvailability startLE :=
  ⟨fun a b => Nat.le_total a.start_time b.start_time⟩

instance : IsTrans DoctorAvailability startLE :=
  ⟨fun _ _ _ h h2 => Nat.le_trans h h2⟩

/-- The three shapes of `DoctorAvailableSlotsView.get`'s 200 response. -/
inductive SlotsResult where
  | onLeave : SlotsResult
  | notAvailableThisDay : SlotsResult
  | available : List Nat → SlotsResult
deriving DecidableEq

/-- `DoctorAvailableSlotsView.get`, lines 237-271, after date parsing and the
doctor lookup: check leave, filter the windows, then run the per-window loop
and concatenate the per-window results in queryset order. -/
def availableSlotsView (leaves : List DoctorLeave) (windows : List DoctorAvailability)
    (booked : List Nat) (date : Nat) (clinicFilter : Option Nat) : SlotsResult :=
  if leaves.any (coversDate date) then .onLeave
  else
    let qs := List.insertionSort startLE (windows.filter (matchesQuery date clinicFilter))
    if qs.isEmpty then .notAvailableThisDay
    else .available
      ((qs.map (fun w => windowSlots booked w.start_time w.end_time w.slot_duration_minutes)).flatten)

/-! ### Consent engine data model (`documents/models.py`) -/

structure ConsentRow where
  id : Nat
  document : Nat
  doctor : Nat
  patient : Nat
  status : String
  purpose : String
  expires_at : Option Nat
  actioned_at : Option Nat
  updated_at : Nat
deriving DecidableEq

structure AccessLogEntry where
  document : Nat
  accessed_by : Nat
  consent : Option Nat
  ip_address : String
deriving DecidableEq

/-- Persisted consent/audit state touched by the document views. -/
structure DocState where
  consents : List ConsentRow
  logs : List AccessLogEntry
deriving DecidableEq

inductive HttpResponse where
  | ok : HttpResponse
  | created : HttpResponse
  | err : Nat → String → HttpResponse
deriving DecidableEq

/-! ### Document access check (`DocumentDetailView`, lines 152-206) -/

/-- The queryset filter of lines 172-174. -/
def grantedFor (docId doctorId : Nat) (c : ConsentRow) : Bool :=
  c.document == docId && c.doctor == doctorId && c.status == "granted"

/-- `DocumentDetailView._get_document_with_access` (lines 152-191).
Arguments mirror what the view reads: whether the non-deleted document row was
found, its owner, the requesting user, the user's doctor profile (if any), and
the current time.  Returns the (possibly updated) consent table, an error
response if access is denied, and the consent id to log for a doctor access. -/
def getDocumentWithAccess (consents : List ConsentRow) (docFound : Bool)
    (docId docOwner userId : Nat) (doctorProfile : Option Nat) (now : Nat) :
    List ConsentRow × Option HttpResponse × Option Nat :=
  if docFound = false then
    (consents, some (.err 404 "Document not found."), none)
  else if docOwner == userId then
    (consents, none, none)
  else
    match doctorProfile with
    | none => (consents, some (.err 403 "Access denied."), none)
    | some d =>
      match consents.find? (grantedFor docId d) with
      | none =>
        (consents, some (.err 403 "Access denied. Request consent from the patient."), none)
      | some c =>
        match c.expires_at with
        | some t =>
          if t < now then
            (consents.map (fun r => if r.id == c.id then { r with status := "expired" } else r),
             some (.err 403 "Your consent for this document has expired."), none)
          else (consents, none, some c.id)
        | none => (consents, none, some c.id)

/-- `DocumentDetailView.get` (lines 193-206): run the access check; on error
return it unchanged, otherwise append one `DocumentAccessLog` row and return
the document. -/
def documentDetailGet (st : DocState) (docFound : Bool) (docId docOwner userId : Nat)
    (doctorProfile : Option Nat) (now : Nat) (ip : String) : DocState × HttpResponse :=
  match getDocumentWithAccess st.consents docFound docId docOwner userId doctorProfile now with
  | (consents2, some e, _) => (⟨consents2, st.logs⟩, e)
  | (consents2, none, consentRef) =>
    (⟨consents2, st.logs ++ [⟨docId, userId, consentRef, ip⟩]⟩, .ok)

/-! ### Consent request (`ConsentRequestView.post`, lines 230-263) -/

/-- The lookup of line 246: `filter(document=doc, doctor=doctor).first()`. -/
def pairPred (docId doctorId : Nat) (c : ConsentRow) : Bool :=
  c.document == docId && c.doctor == doctorId

def consentRequestPost (consents : List ConsentRow) (doctorProfile : Option Nat)
    (docFound : Bool) (docId docOwner : Nat) (purpose : String) (freshId now : Nat) :
    List ConsentRow × HttpResponse :=
  match doctorProfile with
  | none => (consents, .err 403 "Only doctors can request document access.")
  | some d =>
    if docFound = false then (consents, .err 404 "Document not found.")
    else
      match consents.find? (pairPred docId d) with
      | some c =>
        if c.status = "granted" then
          (consents, .err 409 "You already have access to this document.")
        else
          (consents.map (fun r =>
             if r.id == c.id then { r with status := "pending", purpose := purpose, updated_at := now }
             else r),
           .ok)
      | none =>
        (consents ++ [⟨freshId, docId, d, docOwner, "pending", purpose, none, none, now⟩],
         .created)

/-! ### Patient consent action (`PatientConsentActionView.patch`, lines 291-322) -/

def allowedTransitions (st : String) : List String :=
  if st = "pending" then ["granted", "rejected"]
  else if st = "granted" then ["revoked"]
  else if st = "rejected" then ["granted"]
  else if st = "revoked" then ["granted"]
  else []

/-- The 400 message of line 312, naming current and attempted states. -/
def invalidTransitionMsg (cur act : String) : String :=
  "Cannot change status from \"" ++ cur ++ "\" to \"" ++ act ++ "\"."

/-- `PatientConsentActionView.patch`: look the row up by pk and patient,
validate the transition, then write status, `actioned_at`, `expires_at`
(only if a new value was supplied — `if expires_at:`), and `updated_at`. -/
def patientConsentAction (consents : List ConsentRow) (consentId patientId : Nat)
    (action : String) (expOpt : Option Nat) (now : Nat) : List ConsentRow × HttpResponse :=
  match consents.find? (fun r => r.id == consentId && r.patient == patientId) with
  | none => (consents, .err 404 "Consent not found.")
  | some c =>
    if action ∈ allowedTransitions c.status then
      (consents.map (fun r =>
         if r.id == c.id then
           { r with status := action, actioned_at := some now,
                    expires_at := match expOpt with
                                  | some e2 => some e2
                                  | none => c.expires_at,
                    updated_at := now }
         else r),
       .ok)
    else (consents, .err 400 (invalidTransitionMsg c.status action))

/-! ### Auxiliary definitions and concrete fixtures used by the theorems -/

/-- Two windows do not overlap as time intervals. -/
def windowsDisjoint (a b : DoctorAvailability) : Prop :=
  a.end_time ≤ b.start_time ∨ b.end_time ≤ a.start_time

instance : DecidableRel windowsDisjoint := fun a b =>
  inferInstanceAs (Decidable (a.end_time ≤ b.start_time ∨ b.end_time ≤ a.start_time))

/-- Two active windows of one doctor on the same weekday that overlap in time
(09:00-10:00 and 09:30-10:30 on a minute scale starting at 09:00, both with
30-minute slots). -/
def overlapWindowA : DoctorAvailability := ⟨1, none, 0, 0, 60, 30, true⟩

def overlapWindowB : DoctorAvailability := ⟨2, none, 0, 30, 90, 30, true⟩

/-- A consent row already lapsed into status `expired`. -/
def expiredRow : ConsentRow := ⟨1, 10, 20, 30, "expired", "followup", some 50, some 40, 0⟩

/-- A rejected consent row that still carries an old expiry timestamp. -/
def rejectedRowWithExpiry : ConsentRow := ⟨2, 11, 21, 31, "rejected", "surgery", some 5, some 4, 0⟩

/-! ### Lemmas about the slot-generation loop -/

theorem mem_generateSlotsAux {fuel cur stop dur t : Nat}
    (h : t ∈ generateSlotsAux fuel cur stop dur) : cur ≤ t ∧ t + dur ≤ stop := by
  induction fuel generalizing cur with
  | zero => simp [generateSlotsAux] at h
  | succ f ih =>
    rw [generateSlotsAux] at h
    split at h
    · rcases List.mem_cons.mp h with rfl | h2
      · exact ⟨Nat.le_refl _, by assumption⟩
      · have := ih h2
        omega
    · simp at h

theorem sorted_generateSlotsAux {stop dur : Nat} (hd : 0 < dur) :
    ∀ (fuel cur : Nat), (generateSlotsAux fuel cur stop dur).Sorted (· < ·)
  | 0, _ => by simp [generateSlotsAux]
  | f + 1, cur => by
    rw [generateSlotsAux]
    split
    · refine List.sorted_cons.mpr ⟨fun b hb => ?_, sorted_generateSlotsAux hd f (cur + dur)⟩
      have := mem_generateSlotsAux hb
      omega
    · simp

theorem length_generateSlotsAux {stop dur : Nat} (hd : 0 < dur) :
    ∀ (fuel cur : Nat), stop + 1 - cur ≤ fuel →
      (generateSlotsAux fuel cur stop dur).length = (stop - cur) / dur
  | 0, cur, hf => by
    have h0 : stop - cur = 0 := by omega
    simp [generateSlotsAux, h0]
  | f + 1, cur, hf => by
    rw [generateSlotsAux]
    split
    · next h =>
      simp only [List.length_cons]
      rw [length_generateSlotsAux hd f (cur + dur) (by omega)]
      have hsub : stop - (cur + dur) = stop - cur - dur := by omega
      have hle : dur ≤ stop - cur := by omega
      rw [hsub, Nat.div_eq_sub_div hd hle]
    · next h =>
      have : stop - cur < dur := by omega
      simp [Nat.div_eq_of_lt this]

theorem head?_generateSlots {s stop dur : Nat} (h : s + dur ≤ stop) :
    (generateSlots s stop dur).head? = some s := by
  unfold generateSlots
  have hf : stop + 1 - s = (stop - s) + 1 := by omega
  rw [hf, generateSlotsAux]
  simp [h]

theorem windowLoopAux_eq_filter :
    ∀ (fuel : Nat) (booked : List Nat) (cur stop dur : Nat),
      windowLoopAux fuel booked cur stop dur =
        (generateSlotsAux fuel cur stop dur).filter (fun t => !booked.contains t)
  | 0, _, _, _, _ => rfl
  | f + 1, booked, cur, stop, dur => by
    rw [windowLoopAux, generateSlotsAux]
    split
    · rw [List.filter_cons]
      by_cases hb : booked.contains cur
      · simp [hb, windowLoopAux_eq_filter f booked (cur + dur) stop dur]
      · simp [hb, windowLoopAux_eq_filter f booked (cur + dur) stop dur]
    · rfl

theorem windowSlots_eq_filter (booked : List Nat) (s stop dur : Nat) :
    windowSlots booked s stop dur =
      (generateSlots s stop dur).filter (fun t => !booked.contains t) :=
  windowLoopAux_eq_filter _ booked s stop dur

/-- With a positive slot duration, the while-loop finishes within any fuel
covering the window, and its value is `generateSlotsAux` at that fuel. -/
theorem slotLoopFuel_eq_some {stop dur : Nat} (hd : 0 < dur) :
    ∀ (fuel cur : Nat), 0 < fuel → stop + 1 ≤ cur + fuel →
      slotLoopFuel fuel cur stop dur = some (generateSlotsAux fuel cur stop dur)
  | 0, _, hpos, _ => by omega
  | f + 1, cur, _, hf => by
    rw [slotLoopFuel, generateSlotsAux]
    split
    · next h =>
      rw [slotLoopFuel_eq_some hd f (cur + dur) (by omega) (by omega)]
      rfl
    · rfl

/-- With duration zero and a start not past the end, the loop guard
`current + delta <= end` stays true and `current += delta` makes no progress:
no amount of fuel finishes the loop. -/
theorem slotLoopFuel_zero_dur {stop : Nat} :
    ∀ (fuel cur : Nat), cur ≤ stop → slotLoopFuel fuel cur stop 0 = none
  | 0, _, _ => rfl
  | f + 1, cur, h => by
    rw [slotLoopFuel]
    have hg : cur + 0 ≤ stop := by omega
    rw [if_pos hg, Nat.add_zero, slotLoopFuel_zero_dur f cur h]
    rfl

/-! ### Lemmas about the slot engine -/

theorem windowsDisjoint_symm : Symmetric windowsDisjoint := fun _ _ h => h.symm

theorem mem_windowSlots {booked : List Nat} {s stop dur t : Nat} :
    t ∈ windowSlots booked s stop dur ↔
      t ∈ generateSlots s stop dur ∧ booked.contains t = false := by
  rw [windowSlots_eq_filter, List.mem_filter]
  simp

theorem sorted_flatten_windowSlots (booked : List Nat) :
    ∀ (ws : List DoctorAvailability), ws.Sorted startLE → ws.Pairwise windowsDisjoint →
      (∀ w ∈ ws, 0 < w.slot_duration_minutes) →
      ((ws.map (fun w =>
          windowSlots booked w.start_time w.end_time w.slot_duration_minutes)).flatten).Sorted
        (· < ·)
  | [], _, _, _ => by simp
  | w :: ws, hs, hd, hdur => by
    simp only [List.map_cons, List.flatten_cons]
    have hw : 0 < w.slot_duration_minutes := hdur w (List.mem_cons_self w ws)
    have ih := sorted_flatten_windowSlots booked ws (List.Sorted.of_cons hs)
      (List.pairwise_cons.mp hd).2 (fun v hv => hdur v (List.mem_cons_of_mem w hv))
    refine List.pairwise_append.mpr ⟨?_, ih, ?_⟩
    · rw [windowSlots_eq_filter]
      exact List.Sorted.filter _ (sorted_generateSlotsAux hw _ _)
    · intro a ha b hb
      rcases List.mem_flatten.mp hb with ⟨lb, hlb, hblb⟩
      rcases List.mem_map.mp hlb with ⟨v, hv, rfl⟩
      have hav := mem_generateSlotsAux (mem_windowSlots.mp ha).1
      have hbv := mem_generateSlotsAux (mem_windowSlots.mp hblb).1
      have hvd : 0 < v.slot_duration_minutes := hdur v (List.mem_cons_of_mem w hv)
      have hle : startLE w v := (List.pairwise_cons.mp hs).1 v hv
      have hdisj : windowsDisjoint w v := (List.pairwise_cons.mp hd).1 v hv
      unfold startLE at hle
      rcases hdisj with hwv | hvw
      · omega
      · omega

/-- Membership in the engine output: `t` is free exactly when some matching
window generates it and it is not booked. -/
theorem mem_availableSlots {leaves : List DoctorLeave} {windows : List DoctorAvailability}
    {booked : List Nat} {date : Nat} {clinicFilter : Option Nat} {l : List Nat}
    (h : availableSlotsView leaves windows booked date clinicFilter = .available l) :
    ∀ t, t ∈ l ↔
      (∃ w ∈ windows, matchesQuery date clinicFilter w = true ∧
        t ∈ generateSlots w.start_time w.end_time w.slot_duration_minutes) ∧
      booked.contains t = false := by
  unfold availableSlotsView at h
  split at h
  · exact absurd h (by simp)
  · dsimp only at h
    split at h
    · exact absurd h (by simp)
    · intro t
      have hl : l = ((List.insertionSort startLE
          (windows.filter (matchesQuery date clinicFilter))).map (fun w =>
            windowSlots booked w.start_time w.end_time w.slot_duration_minutes)).flatten := by
        cases h
        rfl
      subst hl
      constructor
      · intro ht
        rcases List.mem_flatten.mp ht with ⟨lb, hlb, hblb⟩
        rcases List.mem_map.mp hlb with ⟨v, hv, rfl⟩
        have hv2 := List.mem_filter.mp ((List.mem_insertionSort startLE).mp hv)
        rcases mem_windowSlots.mp hblb with ⟨hgen, hbooked⟩
        exact ⟨⟨v, hv2.1, hv2.2, hgen⟩, hbooked⟩
      · rintro ⟨⟨v, hv, hmatch, hgen⟩, hbooked⟩
        refine List.mem_flatten.mpr
          ⟨windowSlots booked v.start_time v.end_time v.slot_duration_minutes, ?_, ?_⟩
        · exact List.mem_map.mpr ⟨v, (List.mem_insertionSort startLE).mpr
            (List.mem_filter.mpr ⟨hv, hmatch⟩), rfl⟩
        · exact mem_windowSlots.mpr ⟨hgen, hbooked⟩

/-! ### Lemmas about consent-table lookups -/

/-- In a table with distinct primary keys, a search whose predicate holds on
`c` and forces the key of `c` finds exactly `c`. -/
theorem find?_eq_some_of_unique_id {l : List ConsentRow} {c : ConsentRow} {q : ConsentRow → Bool}
    (huid : l.Pairwise (fun a b => a.id ≠ b.id)) (hc : c ∈ l)
    (hqc : q c = true) (hq : ∀ r, q r = true → r.id = c.id) :
    l.find? q = some c := by
  induction l with
  | nil => simp at hc
  | cons a l ih =>
    rcases List.mem_cons.mp hc with rfl | hc2
    · exact List.find?_cons_of_pos l hqc
    · have hne : a.id ≠ c.id := (List.pairwise_cons.mp huid).1 c hc2
      have hqa : ¬ q a = true := fun hqa => hne (hq a hqa)
      rw [List.find?_cons_of_neg l hqa]
      exact ih (List.pairwise_cons.mp huid).2 hc2

/-! ### Claim theorems: slot engine -/

/-- C6: for every (start, end, duration) with duration > 0 and start < end,
slot generation for one window yields exactly floor((end - start) / duration)
candidate times, strictly increasing, first equal to start, every candidate at
most end - duration, and none equal to end. -/
theorem generateSlots_spec (s stop dur : Nat) (hd : 0 < dur) (hse : s < stop) :
    (generateSlots s stop dur).length = (stop - s) / dur ∧
    (generateSlots s stop dur).Sorted (· < ·) ∧
    (∀ t ∈ generateSlots s stop dur, s ≤ t ∧ t + dur ≤ stop ∧ t ≠ stop) ∧
    (generateSlots s stop dur ≠ [] → (generateSlots s stop dur).head? = some s) := by
  refine ⟨length_generateSlotsAux hd _ s (Nat.le_refl _),
    sorted_generateSlotsAux hd _ s, ?_, ?_⟩
  · intro t ht
    have := mem_generateSlotsAux ht
    omega
  · intro hne
    by_cases h : s + dur ≤ stop
    · exact head?_generateSlots h
    · exfalso
      apply hne
      unfold generateSlots
      cases hfe : stop + 1 - s with
      | zero => rfl
      | succ f => rw [generateSlotsAux, if_neg h]

theorem generateSlots_spec_witness :
    (generateSlots 540 780 60).length = (780 - 540) / 60 ∧
    (generateSlots 540 780 60).Sorted (· < ·) ∧
    (∀ t ∈ generateSlots 540 780 60, 540 ≤ t ∧ t + 60 ≤ 780 ∧ t ≠ 780) ∧
    (generateSlots 540 780 60 ≠ [] → (generateSlots 540 780 60).head? = some 540) :=
  generateSlots_spec 540 780 60 (by decide) (by decide)

/-- C7: the spec says a window with duration 0 (or start ≥ end) yields zero
candidates and terminates.  The code's loop `while current + delta <= end`
with `delta = 0` never advances `current`, so for a zero-duration window with
start ≤ end the loop runs forever: at start 09:00 (540), end 10:00 (600),
duration 0, no amount of fuel finishes it.  For contrast, an inverted window
with positive duration does terminate at once with zero candidates. -/
theorem slotLoop_zero_duration_diverges :
    slotLoopDiverges 540 600 0 ∧
    slotLoopFuel 601 600 540 30 = some [] ∧ generateSlots 600 540 30 = [] :=
  ⟨fun fuel => slotLoopFuel_zero_dur fuel 540 (by decide), by decide, by decide⟩

/-- C8: whenever some leave range of the doctor covers the query date, the
engine answers on-leave with an empty slot list, regardless of the windows,
bookings, and clinic filter, short-circuiting before any window is examined. -/
theorem availableSlots_onLeave (leaves : List DoctorLeave) (windows : List DoctorAvailability)
    (booked : List Nat) (date : Nat) (clinicFilter : Option Nat) (lv : DoctorLeave)
    (hmem : lv ∈ leaves) (h1 : lv.start_date ≤ date) (h2 : date ≤ lv.end_date) :
    availableSlotsView leaves windows booked date clinicFilter = .onLeave := by
  unfold availableSlotsView
  have hany : leaves.any (coversDate date) = true :=
    List.any_eq_true.mpr ⟨lv, hmem, by simp [coversDate, h1, h2]⟩
  rw [hany]
  rfl

theorem availableSlots_onLeave_witness :
    availableSlotsView [⟨5, 9⟩] [⟨1, none, 0, 540, 780, 30, true⟩] [540] 7 (some 2) =
      .onLeave :=
  availableSlots_onLeave _ _ _ _ _ ⟨5, 9⟩ (by decide) (by decide) (by decide)

/-- C2 counterexample: with the two overlapping windows above, no leave and no
bookings, the engine returns the per-window concatenation [0, 30, 30, 60],
which contains the duplicate 30 — not the duplicate-free sorted set union the
claim describes. -/
theorem availableSlots_overlap_counterexample :
    availableSlotsView [] [overlapWindowA, overlapWindowB] [] 0 none =
      .available [0, 30, 30, 60] ∧ ¬ ([0, 30, 30, 60] : List Nat).Nodup := by
  constructor
  · decide
  · decide

/-- C2 amended: when the matching windows are pairwise non-overlapping (and
have positive durations), the returned list is exactly the strictly ascending,
duplicate-free list whose members are the candidate times of some matching
window minus the booked times; with overlapping windows the code instead
concatenates the per-window lists, which can duplicate and disorder entries. -/
theorem availableSlots_disjoint_spec (leaves : List DoctorLeave)
    (windows : List DoctorAvailability) (booked : List Nat) (date : Nat)
    (clinicFilter : Option Nat)
    (hleave : leaves.any (coversDate date) = false)
    (hdur : ∀ w ∈ windows, matchesQuery date clinicFilter w = true →
      0 < w.slot_duration_minutes)
    (hdisj : (windows.filter (matchesQuery date clinicFilter)).Pairwise windowsDisjoint)
    (hne : windows.filter (matchesQuery date clinicFilter) ≠ []) :
    ∃ l, availableSlotsView leaves windows booked date clinicFilter = .available l ∧
      l.Sorted (· < ·) ∧ l.Nodup ∧
      ∀ t, t ∈ l ↔
        (∃ w ∈ windows, matchesQuery date clinicFilter w = true ∧
          t ∈ generateSlots w.start_time w.end_time w.slot_duration_minutes) ∧
        booked.contains t = false := by
  have hqs_ne : ¬ (List.insertionSort startLE
      (windows.filter (matchesQuery date clinicFilter))).isEmpty = true := by
    intro h0
    apply hne
    have hlen := (List.perm_insertionSort startLE
      (windows.filter (matchesQuery date clinicFilter))).length_eq
    rw [List.isEmpty_iff] at h0
    rw [h0] at hlen
    exact List.length_eq_zero.mp hlen.symm
  have heq : availableSlotsView leaves windows booked date clinicFilter =
      .available ((List.insertionSort startLE
        (windows.filter (matchesQuery date clinicFilter))).map (fun w =>
          windowSlots booked w.start_time w.end_time w.slot_duration_minutes)).flatten := by
    unfold availableSlotsView
    rw [hleave]
    simp only [Bool.false_eq_true, if_false]
    rw [if_neg hqs_ne]
  have hsorted : (((List.insertionSort startLE
      (windows.filter (matchesQuery date clinicFilter))).map (fun w =>
        windowSlots booked w.start_time w.end_time w.slot_duration_minutes)).flatten).Sorted
      (· < ·) := by
    apply sorted_flatten_windowSlots
    · exact List.sorted_insertionSort startLE _
    · exact ((List.perm_insertionSort startLE _).pairwise_iff
        (fun hxy => windowsDisjoint_symm hxy)).mpr hdisj
    · intro w hw
      have hw2 := List.mem_filter.mp ((List.mem_insertionSort startLE).mp hw)
      exact hdur w hw2.1 hw2.2
  exact ⟨_, heq, hsorted, hsorted.nodup, mem_availableSlots heq⟩

/-- The spec's two-session scenario: 09:00-11:00 and 15:00-17:00, 30-minute
slots, no leave, no bookings — eight strictly ascending distinct slots. -/
theorem availableSlots_disjoint_spec_witness :
    ∃ l, availableSlotsView [] [⟨1, none, 0, 540, 660, 30, true⟩,
        ⟨2, none, 0, 900, 1020, 30, true⟩] [] 0 none = .available l ∧
      l.Sorted (· < ·) ∧ l.Nodup ∧
      ∀ t, t ∈ l ↔
        (∃ w ∈ [(⟨1, none, 0, 540, 660, 30, true⟩ : DoctorAvailability),
            ⟨2, none, 0, 900, 1020, 30, true⟩],
          matchesQuery 0 none w = true ∧
          t ∈ generateSlots w.start_time w.end_time w.slot_duration_minutes) ∧
        ([] : List Nat).contains t = false :=
  availableSlots_disjoint_spec [] _ [] 0 none (by decide) (by decide) (by decide) (by decide)

/-! ### Claim theorems: consent engine -/

/-- C1: a document access by a non-owner doctor whose consent is `granted`
with an `expires_at` strictly in the past is denied, the consent row is left
persisted in status `expired`, and no access-log entry is written; moreover
every denied access (error response of any kind) writes no log entry. -/
theorem documentAccess_expired_denies (st : DocState) (docId docOwner userId d t now : Nat)
    (ip : String) (c : ConsentRow)
    (howner : docOwner ≠ userId)
    (hfind : st.consents.find? (grantedFor docId d) = some c)
    (hexp : c.expires_at = some t) (hlt : t < now) :
    (documentDetailGet st true docId docOwner userId (some d) now ip).2 =
      .err 403 "Your consent for this document has expired." ∧
    (documentDetailGet st true docId docOwner userId (some d) now ip).1.consents =
      st.consents.map (fun r => if r.id == c.id then { r with status := "expired" } else r) ∧
    (∀ r ∈ (documentDetailGet st true docId docOwner userId (some d) now ip).1.consents,
      r.id = c.id → r.status = "expired") ∧
    (documentDetailGet st true docId docOwner userId (some d) now ip).1.logs = st.logs ∧
    (∀ (st2 : DocState) (docFound : Bool) (dId dOwn uId : Nat) (dp : Option Nat) (n : Nat)
      (i : String) (code : Nat) (msg : String),
      (documentDetailGet st2 docFound dId dOwn uId dp n i).2 = .err code msg →
      (documentDetailGet st2 docFound dId dOwn uId dp n i).1.logs = st2.logs) := by
  have hbo : (docOwner == userId) = false := by
    simp only [beq_eq_false_iff_ne, ne_eq]
    exact howner
  have haccess : getDocumentWithAccess st.consents true docId docOwner userId (some d) now =
      (st.consents.map (fun r => if r.id == c.id then { r with status := "expired" } else r),
       some (.err 403 "Your consent for this document has expired."), none) := by
    unfold getDocumentWithAccess
    simp only [hbo, hfind, hexp]
    simp [hlt]
  refine ⟨?_, ?_, ?_, ?_, ?_⟩
  · unfold documentDetailGet
    rw [haccess]
  · unfold documentDetailGet
    rw [haccess]
  · unfold documentDetailGet
    rw [haccess]
    intro r hr hrid
    rcases List.mem_map.mp hr with ⟨x, _, rfl⟩
    by_cases hx : (x.id == c.id) = true
    · simp [hx]
    · rw [if_neg hx] at hrid ⊢
      exact absurd (beq_iff_eq.mpr hrid) hx
  · unfold documentDetailGet
    rw [haccess]
  · intro st2 docFound dId dOwn uId dp n i code msg herr
    unfold documentDetailGet at herr ⊢
    rcases hga : getDocumentWithAccess st2.consents docFound dId dOwn uId dp n with ⟨cs, oe, orf⟩
    rw [hga] at herr
    cases oe with
    | some e => rfl
    | none => exact HttpResponse.noConfusion herr

theorem documentAccess_expired_denies_witness :
    (documentDetailGet ⟨[⟨9, 4, 3, 1, "granted", "review", some 5, some 2, 0⟩],
        [⟨4, 1, none, "10.0.0.1"⟩]⟩ true 4 1 2 (some 3) 10 "10.0.0.2").2 =
      .err 403 "Your consent for this document has expired." ∧
    (documentDetailGet ⟨[⟨9, 4, 3, 1, "granted", "review", some 5, some 2, 0⟩],
        [⟨4, 1, none, "10.0.0.1"⟩]⟩ true 4 1 2 (some 3) 10 "10.0.0.2").1.consents =
      [⟨9, 4, 3, 1, "granted", "review", some 5, some 2, 0⟩].map (fun r =>
        if r.id == (9 : Nat) then { r with status := "expired" } else r) ∧
    (∀ r ∈ (documentDetailGet ⟨[⟨9, 4, 3, 1, "granted", "review", some 5, some 2, 0⟩],
        [⟨4, 1, none, "10.0.0.1"⟩]⟩ true 4 1 2 (some 3) 10 "10.0.0.2").1.consents,
      r.id = (9 : Nat) → r.status = "expired") ∧
    (documentDetailGet ⟨[⟨9, 4, 3, 1, "granted", "review", some 5, some 2, 0⟩],
        [⟨4, 1, none, "10.0.0.1"⟩]⟩ true 4 1 2 (some 3) 10 "10.0.0.2").1.logs =
      [⟨4, 1, none, "10.0.0.1"⟩] ∧
    (∀ (st2 : DocState) (docFound : Bool) (dId dOwn uId : Nat) (dp : Option Nat) (n : Nat)
      (i : String) (code : Nat) (msg : String),
      (documentDetailGet st2 docFound dId dOwn uId dp n i).2 = .err code msg →
      (documentDetailGet st2 docFound dId dOwn uId dp n i).1.logs = st2.logs) :=
  documentAccess_expired_denies
    ⟨[⟨9, 4, 3, 1, "granted", "review", some 5, some 2, 0⟩], [⟨4, 1, none, "10.0.0.1"⟩]⟩
    4 1 2 3 5 10 "10.0.0.2" ⟨9, 4, 3, 1, "granted", "review", some 5, some 2, 0⟩
    (by decide) (by decide) (by decide) (by decide)

/-- C3: a patient action (granted, rejected or revoked) whose pair
(current status, action) is outside the transition table is rejected with a
message naming the current and attempted states, and the consent table is
entirely unchanged. -/
theorem consentAction_invalid_transition (consents : List ConsentRow)
    (consentId patientId : Nat) (action : String) (expOpt : Option Nat) (now : Nat)
    (c : ConsentRow)
    (hfind : consents.find? (fun r => r.id == consentId && r.patient == patientId) = some c)
    (hact : action = "granted" ∨ action = "rejected" ∨ action = "revoked")
    (hnot : action ∉ allowedTransitions c.status) :
    patientConsentAction consents consentId patientId action expOpt now =
      (consents, .err 400 (invalidTransitionMsg c.status action)) ∧
    invalidTransitionMsg c.status action =
      "Cannot change status from \"" ++ c.status ++ "\" to \"" ++ action ++ "\"." := by
  refine ⟨?_, rfl⟩
  unfold patientConsentAction
  simp only [hfind]
  rw [if_neg hnot]

theorem consentAction_invalid_transition_witness :
    patientConsentAction [⟨7, 4, 3, 1, "pending", "review", none, none, 0⟩] 7 1
        "revoked" none 50 =
      ([⟨7, 4, 3, 1, "pending", "review", none, none, 0⟩],
       .err 400 (invalidTransitionMsg "pending" "revoked")) ∧
    invalidTransitionMsg "pending" "revoked" =
      "Cannot change status from \"" ++ "pending" ++ "\" to \"" ++ "revoked" ++ "\"." :=
  consentAction_invalid_transition [⟨7, 4, 3, 1, "pending", "review", none, none, 0⟩]
    7 1 "revoked" none 50 ⟨7, 4, 3, 1, "pending", "review", none, none, 0⟩
    (by decide) (by simp) (by decide)

/-- C4 counterexample: the claim says a row in status `expired` can be
re-granted by the patient action `granted`.  The transition table of
`PatientConsentActionView.patch` has no entry for `expired`, so the action is
rejected with an invalid-transition error and the row stays `expired`. -/
theorem consentAction_expired_regrant_counterexample :
    patientConsentAction [expiredRow] 1 30 "granted" none 100 =
      ([expiredRow], .err 400 (invalidTransitionMsg "expired" "granted")) ∧
    expiredRow.status = "expired" := by
  constructor
  · decide
  · rfl

/-- C4 amended: `expired` is terminal for patient actions — every patient
action on an `expired` consent row fails with an invalid-transition error and
leaves the table unchanged; re-granting is only possible after the doctor
re-requests access (which resets the row to `pending`). -/
theorem consentAction_expired_rejects_all (consents : List ConsentRow)
    (consentId patientId : Nat) (action : String) (expOpt : Option Nat) (now : Nat)
    (c : ConsentRow)
    (hfind : consents.find? (fun r => r.id == consentId && r.patient == patientId) = some c)
    (hst : c.status = "expired") :
    patientConsentAction consents consentId patientId action expOpt now =
      (consents, .err 400 (invalidTransitionMsg "expired" action)) := by
  unfold patientConsentAction
  simp only [hfind, hst]
  have h0 : allowedTransitions "expired" = [] := rfl
  rw [h0, if_neg (List.not_mem_nil action)]

theorem consentAction_expired_rejects_all_witness :
    patientConsentAction [⟨2, 10, 20, 30, "expired", "followup", some 50, some 40, 0⟩] 2 30
        "granted" (some 900) 100 =
      ([⟨2, 10, 20, 30, "expired", "followup", some 50, some 40, 0⟩],
       .err 400 (invalidTransitionMsg "expired" "granted")) :=
  consentAction_expired_rejects_all _ 2 30 "granted" (some 900) 100
    ⟨2, 10, 20, 30, "expired", "followup", some 50, some 40, 0⟩ (by decide) (by decide)

/-- C5 counterexample: the claim says a re-grant that supplies no
`expires_at` leaves the row with `expires_at` null.  The code only assigns
`expires_at` when a new value is supplied (`if expires_at:`), so re-granting
this rejected row at time 10 keeps the old expiry 5 instead of clearing it. -/
theorem consentAction_regrant_keeps_expiry_counterexample :
    patientConsentAction [rejectedRowWithExpiry] 2 31 "granted" none 10 =
      ([⟨2, 11, 21, 31, "granted", "surgery", some 5, some 10, 10⟩], .ok) ∧
    (⟨2, 11, 21, 31, "granted", "surgery", some 5, some 10, 10⟩ : ConsentRow).expires_at ≠
      none := by
  constructor
  · decide
  · decide

/-- C5 amended: a re-grant that supplies no `expires_at` keeps the row's
previous `expires_at` value unchanged (so it is null only if it already was),
sets `actioned_at` to the action time, and sets the status to `granted`. -/
theorem consentAction_grant_no_expiry_keeps (consents : List ConsentRow)
    (consentId patientId : Nat) (now : Nat) (c : ConsentRow)
    (hfind : consents.find? (fun r => r.id == consentId && r.patient == patientId) = some c)
    (hallowed : "granted" ∈ allowedTransitions c.status) :
    patientConsentAction consents consentId patientId "granted" none now =
      (consents.map (fun r =>
        if r.id == c.id then
          { r with status := "granted", actioned_at := some now,
                   expires_at := c.expires_at, updated_at := now }
        else r),
       .ok) := by
  unfold patientConsentAction
  simp only [hfind]
  rw [if_pos hallowed]

/-- The spec's own scenario: a `rejected` row with no expiry re-granted with
no `expires_at` ends `granted`, `actioned_at` set, `expires_at` still null. -/
theorem consentAction_grant_no_expiry_keeps_witness :
    patientConsentAction [⟨3, 12, 22, 32, "rejected", "surgery", none, some 4, 0⟩] 3 32
        "granted" none 10 =
      ([⟨3, 12, 22, 32, "rejected", "surgery", none, some 4, 0⟩].map (fun r =>
        if r.id == (3 : Nat) then
          { r with status := "granted", actioned_at := some (10 : Nat),
                   expires_at := (none : Option Nat), updated_at := (10 : Nat) }
        else r),
       .ok) :=
  consentAction_grant_no_expiry_keeps _ 3 32 10
    ⟨3, 12, 22, 32, "rejected", "surgery", none, some 4, 0⟩ (by decide) (by decide)

theorem find?_map_by_key (f : ConsentRow → ConsentRow) (hfid : ∀ r, (f r).id = r.id)
    (hfpat : ∀ r, (f r).patient = r.patient) :
    ∀ (l : List ConsentRow) (c : ConsentRow), l.Pairwise (fun a b => a.id ≠ b.id) → c ∈ l →
      (l.map f).find? (fun r => r.id == c.id && r.patient == c.patient) = some (f c)
  | [], _, _, hc => by simp at hc
  | a :: l, c, huid, hc => by
    rw [List.map_cons]
    rcases List.mem_cons.mp hc with rfl | hc2
    · apply List.find?_cons_of_pos
      rw [hfid, hfpat]
      simp
    · have hne : a.id ≠ c.id := (List.pairwise_cons.mp huid).1 c hc2
      rw [List.find?_cons_of_neg]
      · exact find?_map_by_key f hfid hfpat l c (List.pairwise_cons.mp huid).2 hc2
      · intro hcontra
        apply hne
        have h1 := (Bool.and_eq_true_iff.mp hcontra).1
        rw [hfid] at h1
        exact beq_iff_eq.mp h1

theorem find?_map_by_id (f : ConsentRow → ConsentRow) (hfid : ∀ r, (f r).id = r.id) :
    ∀ (l : List ConsentRow) (c : ConsentRow), l.Pairwise (fun a b => a.id ≠ b.id) → c ∈ l →
      (l.map f).find? (fun r => r.id == c.id) = some (f c)
  | [], _, _, hc => by simp at hc
  | a :: l, c, huid, hc => by
    rw [List.map_cons]
    rcases List.mem_cons.mp hc with rfl | hc2
    · apply List.find?_cons_of_pos
      rw [hfid]
      simp
    · have hne : a.id ≠ c.id := (List.pairwise_cons.mp huid).1 c hc2
      rw [List.find?_cons_of_neg]
      · exact find?_map_by_id f hfid l c (List.pairwise_cons.mp huid).2 hc2
      · intro hcontra
        apply hne
        rw [hfid] at hcontra
        exact beq_iff_eq.mp hcontra

/-- C9: a doctor's request-for-access on an existing document, by case on the
unique consent row for (document, doctor): no row — a new `pending` row with
the supplied purpose is appended (and it is then the only row for the pair);
a `granted` row — conflict, table unchanged; any other row — that same row is
overwritten to `pending` with the new purpose, and the table keeps its length
(no second row for the pair is ever created). -/
theorem consentRequest_cases (consents : List ConsentRow) (d docId docOwner : Nat)
    (purpose : String) (freshId now : Nat) :
    (consents.find? (pairPred docId d) = none →
      consentRequestPost consents (some d) true docId docOwner purpose freshId now =
        (consents ++
           [(⟨freshId, docId, d, docOwner, "pending", purpose, none, none, now⟩ : ConsentRow)],
         .created) ∧
      (consents ++
         [(⟨freshId, docId, d, docOwner, "pending", purpose, none, none, now⟩ :
            ConsentRow)]).countP (pairPred docId d) = 1) ∧
    (∀ c, consents.find? (pairPred docId d) = some c → c.status = "granted" →
      consentRequestPost consents (some d) true docId docOwner purpose freshId now =
        (consents, .err 409 "You already have access to this document.")) ∧
    (∀ c, consents.find? (pairPred docId d) = some c → c.status ≠ "granted" →
      consentRequestPost consents (some d) true docId docOwner purpose freshId now =
        (consents.map (fun r =>
          if r.id == c.id then { r with status := "pending", purpose := purpose, updated_at := now }
          else r),
         .ok) ∧
      (consents.map (fun r =>
          if r.id == c.id then { r with status := "pending", purpose := purpose, updated_at := now }
          else r)).length = consents.length) := by
  have hstep : consentRequestPost consents (some d) true docId docOwner purpose freshId now =
      (match consents.find? (pairPred docId d) with
       | some c =>
         if c.status = "granted" then
           (consents, .err 409 "You already have access to this document.")
         else
           (consents.map (fun r =>
              if r.id == c.id then
                { r with status := "pending", purpose := purpose, updated_at := now }
              else r),
            .ok)
       | none =>
         (consents ++
            [(⟨freshId, docId, d, docOwner, "pending", purpose, none, none, now⟩ : ConsentRow)],
          .created)) := rfl
  refine ⟨?_, ?_, ?_⟩
  · intro hnone
    constructor
    · rw [hstep, hnone]
    · rw [List.countP_append]
      have h0 : consents.countP (pairPred docId d) = 0 :=
        List.countP_eq_zero.mpr (fun a ha hpa => (List.find?_eq_none.mp hnone a ha) hpa)
      rw [h0]
      simp [pairPred]
  · intro c hc hg
    rw [hstep, hc]
    dsimp only
    rw [if_pos hg]
  · intro c hc hng
    refine ⟨?_, List.length_map _ _⟩
    rw [hstep, hc]
    dsimp only
    rw [if_neg hng]

theorem consentRequest_cases_witness :
    consentRequestPost [] (some 7) true 3 9 "checkup" 42 5 =
      ([] ++ [(⟨42, 3, 7, 9, "pending", "checkup", none, none, 5⟩ : ConsentRow)], .created) ∧
    (([] : List ConsentRow) ++
       [(⟨42, 3, 7, 9, "pending", "checkup", none, none, 5⟩ : ConsentRow)]).countP
      (pairPred 3 7) = 1 :=
  (consentRequest_cases [] 7 3 9 "checkup" 42 5).1 (by decide)

/-- C10: re-requesting on an existing non-granted consent row rewrites only
status, purpose and the update timestamp — every row of the resulting table
keeps its identity, `expires_at` and `actioned_at` from before — and therefore
a later re-grant that supplies no fresh `expires_at` carries the old (possibly
already past) expiry forward into the newly granted row. -/
theorem consentRequest_rerequest_frame (consents : List ConsentRow) (d docId docOwner : Nat)
    (purpose : String) (freshId now now2 : Nat) (c : ConsentRow)
    (huid : consents.Pairwise (fun a b => a.id ≠ b.id))
    (hfind : consents.find? (pairPred docId d) = some c)
    (hng : c.status ≠ "granted") :
    (∀ r ∈ (consentRequestPost consents (some d) true docId docOwner purpose freshId now).1,
      ∃ r0 ∈ consents, r.id = r0.id ∧ r.expires_at = r0.expires_at ∧
        r.actioned_at = r0.actioned_at ∧ r.document = r0.document ∧
        r.doctor = r0.doctor ∧ r.patient = r0.patient) ∧
    (∃ row,
      (patientConsentAction
          (consentRequestPost consents (some d) true docId docOwner purpose freshId now).1
          c.id c.patient "granted" none now2).1.find? (fun r => r.id == c.id) = some row ∧
      row.status = "granted" ∧ row.expires_at = c.expires_at) := by
  have hpost : (consentRequestPost consents (some d) true docId docOwner purpose freshId now).1 =
      consents.map (fun r =>
        if r.id == c.id then { r with status := "pending", purpose := purpose, updated_at := now }
        else r) := by
    have hstep2 : consentRequestPost consents (some d) true docId docOwner purpose freshId now =
        (match consents.find? (pairPred docId d) with
         | some c =>
           if c.status = "granted" then
             (consents, .err 409 "You already have access to this document.")
           else
             (consents.map (fun r =>
                if r.id == c.id then
                  { r with status := "pending", purpose := purpose, updated_at := now }
                else r),
              .ok)
         | none =>
           (consents ++
              [(⟨freshId, docId, d, docOwner, "pending", purpose, none, none, now⟩ : ConsentRow)],
            .created)) := rfl
    rw [hstep2, hfind]
    dsimp only
    rw [if_neg hng]
  have hfid : ∀ r : ConsentRow,
      ((fun r : ConsentRow =>
        if r.id == c.id then { r with status := "pending", purpose := purpose, updated_at := now }
        else r) r).id = r.id := by
    intro r
    dsimp only
    by_cases h : (r.id == c.id) = true
    · rw [if_pos h]
    · rw [if_neg h]
  have hfpat : ∀ r : ConsentRow,
      ((fun r : ConsentRow =>
        if r.id == c.id then { r with status := "pending", purpose := purpose, updated_at := now }
        else r) r).patient = r.patient := by
    intro r
    dsimp only
    by_cases h : (r.id == c.id) = true
    · rw [if_pos h]
    · rw [if_neg h]
  have hcmem : c ∈ consents := List.mem_of_find?_eq_some hfind
  constructor
  · rw [hpost]
    intro r hr
    rcases List.mem_map.mp hr with ⟨x, hx, rfl⟩
    by_cases hxid : (x.id == c.id) = true
    · rw [if_pos hxid]
      exact ⟨x, hx, rfl, rfl, rfl, rfl, rfl, rfl⟩
    · rw [if_neg hxid]
      exact ⟨x, hx, rfl, rfl, rfl, rfl, rfl, rfl⟩
  · rw [hpost]
    have hfind2 := find?_map_by_key _ hfid hfpat consents c huid hcmem
    have hpatch : patientConsentAction
        (consents.map (fun r =>
          if r.id == c.id then { r with status := "pending", purpose := purpose, updated_at := now }
          else r))
        c.id c.patient "granted" none now2 =
        ((consents.map (fun r =>
          if r.id == c.id then { r with status := "pending", purpose := purpose, updated_at := now }
          else r)).map (fun r =>
            if r.id == c.id then
              { r with status := "granted", actioned_at := some now2,
                       expires_at := c.expires_at, updated_at := now2 }
            else r),
         .ok) := by
      unfold patientConsentAction
      rw [hfind2]
      simp [allowedTransitions]
    rw [hpatch, List.map_map]
    refine ⟨_, find?_map_by_id _ ?_ consents c huid hcmem, ?_, ?_⟩
    · intro r
      by_cases h : (r.id == c.id) = true <;> simp [Function.comp, h]
    · simp [Function.comp]
    · simp [Function.comp]

theorem consentRequest_rerequest_frame_witness :
    (∀ r ∈ (consentRequestPost
        [(⟨1, 4, 7, 9, "rejected", "old", some 5, some 2, 0⟩ : ConsentRow)]
        (some 7) true 4 9 "new" 99 10).1,
      ∃ r0 ∈ [(⟨1, 4, 7, 9, "rejected", "old", some 5, some 2, 0⟩ : ConsentRow)],
        r.id = r0.id ∧ r.expires_at = r0.expires_at ∧
        r.actioned_at = r0.actioned_at ∧ r.document = r0.document ∧
        r.doctor = r0.doctor ∧ r.patient = r0.patient) ∧
    (∃ row,
      (patientConsentAction
          (consentRequestPost
            [(⟨1, 4, 7, 9, "rejected", "old", some 5, some 2, 0⟩ : ConsentRow)]
            (some 7) true 4 9 "new" 99 10).1
          1 9 "granted" none 20).1.find? (fun r => r.id == (1 : Nat)) = some row ∧
      row.status = "granted" ∧ row.expires_at = some 5) :=
  consentRequest_rerequest_frame
    [(⟨1, 4, 7, 9, "rejected", "old", some 5, some 2, 0⟩ : ConsentRow)]
    7 4 9 "new" 99 10 20 ⟨1, 4, 7, 9, "rejected", "old", some 5, some 2, 0⟩
    (by simp) (by decide) (by decide)

end QuickCare
